import Mathlib

/-!
Verification of the RehabSense exercise-analysis pipeline and its frontend
metric handling.  Frontend definitions are translated from the TypeScript
sources (session page, summary page, session context, session summary
component).  The backend services (angle engine, posture analyzer,
repetition counter, session aggregator, pipeline driver) are not present in
the repository snapshot, so they are modelled from the specification, as
marked in the doc comments below.
-/

namespace RehabSense

/-- A JavaScript value as it can appear in a parsed WebSocket message field:
an absent field (undefined), null, a finite number, NaN, a string, or a
boolean. -/
inductive JSValue where
  | undef
  | null
  | num (q : ℚ)
  | nan
  | str (s : String)
  | bool (b : Bool)
deriving DecidableEq

/-- JavaScript truthiness of a value. -/
def JSValue.truthy : JSValue → Bool
  | .undef => false
  | .null => false
  | .num q => decide (q ≠ 0)
  | .nan => false
  | .str s => decide (s ≠ "")
  | .bool b => b

/-- JavaScript logical-or: the left operand when truthy, else the right. -/
def jsOr (v d : JSValue) : JSValue := if v.truthy then v else d

/-- JavaScript Number() conversion restricted to the value shapes above;
undefined gives NaN, null and the empty string give 0, nonempty strings
parse as nonnegative integers or give NaN, booleans give 0 or 1. -/
def jsNumber : JSValue → JSValue
  | .undef => .nan
  | .null => .num 0
  | .num q => .num q
  | .nan => .nan
  | .str s =>
      if s = "" then .num 0
      else
        match s.toNat? with
        | some n => .num n
        | none => .nan
  | .bool b => .num (if b then 1 else 0)

/-- Fields of an incoming feedback or test_response WebSocket message as the
session page reads them (frontend/app/session/page.tsx). -/
structure WSMessage where
  reps : JSValue
  correct_reps : JSValue
  incorrect_reps : JSValue
  accuracy : JSValue
  misalignments : JSValue
  alerts : JSValue
  joint_deviation : JSValue
  feedback : JSValue
  posture_correct : JSValue
  frame : JSValue
deriving DecidableEq

/-- The per-message mapped data stored by the session page handler. -/
structure MappedData where
  reps : JSValue
  correct_reps : JSValue
  incorrect_reps : JSValue
  accuracy : JSValue
  misalignments : JSValue
  alerts : JSValue
  joint_deviation : JSValue
  feedback : JSValue
  posture_correct : Bool
  frame : JSValue
deriving DecidableEq

/-- The mapping the session page applies to each feedback or test_response
message (page.tsx lines 76-104 and 110-138): every numeric metric goes
through Number(field or 0), the feedback string defaults to
"Analyzing...", posture_correct is coerced with Boolean(), and the frame
defaults to null. -/
def mapWSMessage (m : WSMessage) : MappedData :=
  { reps := jsNumber (jsOr m.reps (.num 0))
    correct_reps := jsNumber (jsOr m.correct_reps (.num 0))
    incorrect_reps := jsNumber (jsOr m.incorrect_reps (.num 0))
    accuracy := jsNumber (jsOr m.accuracy (.num 0))
    misalignments := jsNumber (jsOr m.misalignments (.num 0))
    alerts := jsNumber (jsOr m.alerts (.num 0))
    joint_deviation := jsNumber (jsOr m.joint_deviation (.num 0))
    feedback := jsOr m.feedback (.str "Analyzing...")
    posture_correct := m.posture_correct.truthy
    frame := jsOr m.frame .null }

/-- A numeric message field that is absent, null, or the number zero. -/
def absentNullOrZero (v : JSValue) : Prop :=
  v = .undef ∨ v = .null ∨ v = .num 0

instance (v : JSValue) : Decidable (absentNullOrZero v) := by
  unfold absentNullOrZero; infer_instance

/-- A message whose fields are all null, as when the backend omits every
metric. -/
def nullWSMessage : WSMessage :=
  { reps := .null, correct_reps := .null, incorrect_reps := .null
    accuracy := .null, misalignments := .null, alerts := .null
    joint_deviation := .null, feedback := .null, posture_correct := .null
    frame := .null }

/-- JavaScript Math.round on an exact rational: floor of the value plus one
half (ties round toward positive infinity). -/
def jsRound (q : ℚ) : ℤ := ⌊q + 1 / 2⌋

/-- Consistency score of the summary page (src/unnamed/part_002 lines
64-65): round(correctReps / totalReps * 100) when totalReps is positive,
else 0. -/
def consistencyScore (totalReps correctReps : ℕ) : ℤ :=
  if 0 < totalReps then jsRound ((correctReps : ℚ) / (totalReps : ℚ) * 100) else 0

/-- Stability score of the summary page (src/unnamed/part_002 lines 68-71):
max(0, 100 - averageJointDeviation * 15 - misalignmentsCount * 5). -/
def stabilityScore (averageJointDeviation : ℚ) (misalignmentsCount : ℕ) : ℚ :=
  max 0 (100 - averageJointDeviation * 15 - (misalignmentsCount : ℚ) * 5)

/-- The stability figure the summary page displays (src/unnamed/part_002
line 298): max(0, round(stabilityScore)). -/
def displayedStability (averageJointDeviation : ℚ) (misalignmentsCount : ℕ) : ℤ :=
  max 0 (jsRound (stabilityScore averageJointDeviation misalignmentsCount))

/-- Performance rating computed in handleStopSession (page.tsx lines
266-267). -/
def handleStopSessionRating (accuracy : ℚ) : String :=
  if accuracy ≥ 90 then "excellent"
  else if accuracy ≥ 75 then "good"
  else "needs-improvement"

/-- Badge label chosen by getPerformanceBadge in
components/session-summary.tsx (lines 24-47), computed from the accuracy. -/
def sessionSummaryBadgeLabel (accuracy : ℚ) : String :=
  if accuracy ≥ 90 then "Excellent"
  else if accuracy ≥ 75 then "Good"
  else "Needs Improvement"

/-- Badge label chosen by getPerformanceBadge on the summary page
(src/unnamed/part_002 lines 35-59), which switches on the stored rating
string. -/
def summaryPageBadgeLabel (rating : String) : String :=
  if rating = "excellent" then "Excellent"
  else if rating = "good" then "Good"
  else "Needs Improvement"

/-- Rating thresholds exactly as the specification words them: excellent
when the accuracy is at least 90, good when it is at least 75 and below 90,
needs-improvement otherwise. -/
def specRating (accuracy : ℚ) : String :=
  if accuracy ≥ 90 then "excellent"
  else if 75 ≤ accuracy ∧ accuracy < 90 then "good"
  else "needs-improvement"

/-- Initial session context state set by SessionProvider (session context
source embedded in frontend/COMPLETELY_FIXED.md, lines 230-241). -/
structure SessionContextState where
  selectedExercise : String
  totalReps : ℚ
  correctReps : ℚ
  incorrectReps : ℚ
  postureAccuracy : ℚ
  misalignmentsCount : ℚ
  incorrectFormAlerts : ℚ
  sessionDuration : ℚ
  averageJointDeviation : ℚ
  performanceRating : String
deriving DecidableEq

/-- The useState defaults of SessionProvider: note postureAccuracy starts
at 95 and averageJointDeviation at 2.5. -/
def sessionProviderInit : SessionContextState :=
  { selectedExercise := "squat"
    totalReps := 0
    correctReps := 0
    incorrectReps := 0
    postureAccuracy := 95
    misalignmentsCount := 0
    incorrectFormAlerts := 0
    sessionDuration := 0
    averageJointDeviation := 5 / 2
    performanceRating := "excellent" }

/-- Modelled from the spec: Session Metrics (section 3), the externally
visible aggregate; the backend services code is not in the repository
snapshot. -/
structure SessionMetrics where
  totalReps : ℕ
  correctReps : ℕ
  incorrectReps : ℕ
  postureAccuracy : ℚ
  misalignmentCount : ℕ
  alertCount : ℕ
  averageDeviation : ℚ
  duration : ℕ
  rating : String
deriving DecidableEq

/-- Modelled from the spec: the Session Aggregator state (section 4.4);
missing from the snapshot (backend/services is absent). -/
structure SessionAgg where
  totalReps : ℕ
  correctReps : ℕ
  incorrectReps : ℕ
  correctFrames : ℕ
  totalFrames : ℕ
  misalignmentCount : ℕ
  alertCount : ℕ
  deviationSum : ℚ
  lastIncorrect : Bool
  finalized : Bool
  duration : ℕ
deriving DecidableEq

/-- A fresh aggregator for a new session. -/
def SessionAgg.start : SessionAgg :=
  { totalReps := 0, correctReps := 0, incorrectReps := 0
    correctFrames := 0, totalFrames := 0
    misalignmentCount := 0, alertCount := 0
    deviationSum := 0, lastIncorrect := false
    finalized := false, duration := 0 }

/-- Modelled from the spec: on_rep_completed (sections 4.4 and 7c)
increments the rep counters; after finalize the call is rejected with an
explicit failure and no new state is produced. -/
def SessionAgg.onRepCompleted (s : SessionAgg) (correct : Bool) :
    Except String SessionAgg :=
  if s.finalized then .error "session already finalized"
  else
    .ok { s with
      totalReps := s.totalReps + 1
      correctReps := s.correctReps + (if correct then 1 else 0)
      incorrectReps := s.incorrectReps + (if correct then 0 else 1) }

/-- Modelled from the spec: on_posture_verdict (section 4.4) updates the
frame counters, a rising-edge misalignment and alert count, and the running
deviation sum; after finalize the call is rejected. -/
def SessionAgg.onPostureVerdict (s : SessionAgg) (isCorrect : Bool)
    (deviation : ℚ) : Except String SessionAgg :=
  if s.finalized then .error "session already finalized"
  else
    .ok { s with
      totalFrames := s.totalFrames + 1
      correctFrames := s.correctFrames + (if isCorrect then 1 else 0)
      misalignmentCount :=
        s.misalignmentCount + (if !isCorrect && !s.lastIncorrect then 1 else 0)
      alertCount :=
        s.alertCount + (if !isCorrect && !s.lastIncorrect then 1 else 0)
      deviationSum := s.deviationSum + deviation
      lastIncorrect := !isCorrect }

/-- Modelled from the spec: snapshot (section 4.4) computes postureAccuracy
as correct frames over evaluated frames times 100 with an explicit
zero-frames guard, and the rating by the fixed thresholds. -/
def SessionAgg.snapshot (s : SessionAgg) : SessionMetrics :=
  let acc : ℚ :=
    if s.totalFrames = 0 then 0
    else (s.correctFrames : ℚ) / (s.totalFrames : ℚ) * 100
  { totalReps := s.totalReps
    correctReps := s.correctReps
    incorrectReps := s.incorrectReps
    postureAccuracy := acc
    misalignmentCount := s.misalignmentCount
    alertCount := s.alertCount
    averageDeviation :=
      if s.totalFrames = 0 then 0 else s.deviationSum / (s.totalFrames : ℚ)
    duration := s.duration
    rating :=
      if acc ≥ 90 then "excellent"
      else if acc ≥ 75 then "good"
      else "needs-improvement" }

/-- Modelled from the spec: finalize (section 4.4) freezes the duration and
marks the aggregator terminal. -/
def SessionAgg.finalize (s : SessionAgg) (duration : ℕ) : SessionAgg :=
  { s with finalized := true, duration := duration }

/-- Modelled from the spec: Repetition Counter phases (section 4.3). -/
inductive Phase where
  | idle
  | descending
  | bottom
  | ascending
deriving DecidableEq

/-- Modelled from the spec: per-exercise repetition counter configuration
(section 4.3): top and bottom thresholds, hysteresis band, bottom debounce
length, and the stall window in frames. -/
structure RepConfig where
  top : ℚ
  bottom : ℚ
  hysteresis : ℚ
  debounce : ℕ
  stallWindow : ℕ
deriving DecidableEq

/-- The squat configuration fixed by the spec test property (section 8):
thresholds 160 and 80 with hysteresis 5; debounce and stall window take the
recommended small values. -/
def squatConfig : RepConfig :=
  { top := 160, bottom := 80, hysteresis := 5, debounce := 2, stallWindow := 10 }

/-- Modelled from the spec: Rep Counter State (section 3): current phase,
extremum angle of the current phase, consecutive frames in the bottom band,
stalled-frame count, and whether every posture verdict of the current rep
was correct. -/
structure RepState where
  phase : Phase
  extremum : ℚ
  framesInPhase : ℕ
  stallCount : ℕ
  allCorrect : Bool
deriving DecidableEq

/-- The counter state at session start: idle with empty working memory. -/
def RepState.start : RepState :=
  { phase := .idle, extremum := 0, framesInPhase := 0, stallCount := 0
    allCorrect := true }

/-- A rep-completed event with its correctness classification. -/
structure RepEvent where
  correct : Bool
deriving DecidableEq

/-- Modelled from the spec: one frame of the Repetition Counter state
machine (section 4.3).  The input is the tracked angle with the frame
posture verdict, or none when no landmark data arrived.  Descending starts
when the angle drops below top minus hysteresis, bottom when it drops below
bottom plus hysteresis, ascent needs the debounce count of bottom-band
frames, and crossing back above top minus hysteresis emits a rep classified
correct when every sampled verdict was correct.  A stall longer than the
stall window aborts the rep back to idle without emitting. -/
def repStep (cfg : RepConfig) (s : RepState) (input : Option (ℚ × Bool)) :
    RepState × Option RepEvent :=
  match input with
  | none =>
      if s.phase = .idle then (s, none)
      else if cfg.stallWindow < s.stallCount + 1 then (RepState.start, none)
      else ({ s with stallCount := s.stallCount + 1 }, none)
  | some (angle, ok) =>
      match s.phase with
      | .idle =>
          if angle < cfg.top - cfg.hysteresis then
            ({ phase := .descending, extremum := angle, framesInPhase := 0
               stallCount := 0, allCorrect := ok }, none)
          else ({ s with stallCount := 0 }, none)
      | .descending =>
          if angle < cfg.bottom + cfg.hysteresis then
            ({ phase := .bottom, extremum := min s.extremum angle
               framesInPhase := 1, stallCount := 0
               allCorrect := s.allCorrect && ok }, none)
          else
            ({ s with extremum := min s.extremum angle, stallCount := 0
                      allCorrect := s.allCorrect && ok }, none)
      | .bottom =>
          if angle ≤ cfg.bottom + cfg.hysteresis then
            ({ s with extremum := min s.extremum angle
                      framesInPhase := s.framesInPhase + 1, stallCount := 0
                      allCorrect := s.allCorrect && ok }, none)
          else if cfg.debounce ≤ s.framesInPhase then
            ({ s with phase := .ascending, stallCount := 0
                      allCorrect := s.allCorrect && ok }, none)
          else
            ({ s with stallCount := 0
                      allCorrect := s.allCorrect && ok }, none)
      | .ascending =>
          if cfg.top - cfg.hysteresis < angle then
            (RepState.start, some { correct := s.allCorrect && ok })
          else
            ({ s with stallCount := 0
                      allCorrect := s.allCorrect && ok }, none)

/-- Run the repetition counter over a list of frame inputs, collecting the
emitted rep events in order. -/
def repRun (cfg : RepConfig) (s : RepState) :
    List (Option (ℚ × Bool)) → RepState × List RepEvent
  | [] => (s, [])
  | i :: rest =>
      let out := repStep cfg s i
      let outs := repRun cfg out.1 rest
      (outs.1,
       match out.2 with
       | some e => e :: outs.2
       | none => outs.2)

/-- Fold a list of rep-completed events into the aggregator, keeping the
old state whenever a call is rejected. -/
def SessionAgg.applyRepEvents (s : SessionAgg) (evs : List RepEvent) : SessionAgg :=
  evs.foldl
    (fun a e =>
      match a.onRepCompleted e.correct with
      | .ok a2 => a2
      | .error _ => a)
    s

/-- Frame inputs carrying the given tracked angles, all with a correct
posture verdict. -/
def inputsOfAngles (xs : List ℚ) : List (Option (ℚ × Bool)) :=
  xs.map (fun a => some (a, true))

/-- Modelled from the spec: a clean rep cycle (section 8): a nonempty
descent strictly inside the band between the thresholds, a bottom hold of
at least the debounce length, a nonempty ascent back inside the band, and a
final sample above the top band. -/
def CleanCycle (cfg : RepConfig) (xs : List ℚ) : Prop :=
  ∃ p q r t, xs = p ++ q ++ r ++ [t] ∧
    p ≠ [] ∧
    (∀ a ∈ p, cfg.bottom + cfg.hysteresis ≤ a ∧ a < cfg.top - cfg.hysteresis) ∧
    q ≠ [] ∧ cfg.debounce ≤ q.length ∧
    (∀ a ∈ q, a < cfg.bottom + cfg.hysteresis) ∧
    r ≠ [] ∧
    (∀ a ∈ r, cfg.bottom + cfg.hysteresis < a ∧ a ≤ cfg.top - cfg.hysteresis) ∧
    cfg.top - cfg.hysteresis < t

/-- A concrete clean squat cycle oscillating between 170 and 70 degrees. -/
def squatCycleExample : List ℚ :=
  [150, 120, 90, 75, 70, 75, 90, 120, 150, 170]

/-- Modelled from the spec: Posture Analyzer smoothing and verdict state
(section 4.2): an exponential moving average of the deviation and the
hysteresis boolean verdict. -/
structure PostureState where
  ema : ℚ
  isCorrect : Bool
deriving DecidableEq

/-- The recommended smoothing factor alpha of 0.3 (section 4.2). -/
def postureAlpha : ℚ := 3 / 10

/-- The correct/incorrect deviation threshold of 15 degrees (section 8). -/
def postureThreshold : ℚ := 15

/-- The verdict hysteresis half-band of 2.5 degrees (section 8). -/
def postureBand : ℚ := 5 / 2

/-- Modelled from the spec: one posture sample (section 4.2): smooth the
deviation with the moving average, then update the boolean verdict with
hysteresis: a correct verdict turns incorrect only above threshold plus
band, an incorrect one turns correct only below threshold minus band. -/
def postureStep (s : PostureState) (deviation : ℚ) : PostureState :=
  let e := postureAlpha * deviation + (1 - postureAlpha) * s.ema
  if s.isCorrect then { ema := e, isCorrect := decide (e ≤ postureThreshold + postureBand) }
  else { ema := e, isCorrect := decide (e < postureThreshold - postureBand) }

/-- Run the posture verdict state over a deviation sequence. -/
def postureRun (s : PostureState) (devs : List ℚ) : PostureState :=
  devs.foldl postureStep s

/-- The posture state at session start: no accumulated deviation, verdict
correct. -/
def PostureState.start : PostureState := { ema := 0, isCorrect := true }

/-- An alternating deviation sequence of the given length oscillating
between 12 and 16 degrees. -/
def oscillation1216 : ℕ → List ℚ
  | 0 => []
  | n + 1 => (if n % 2 = 0 then (12 : ℚ) else 16) :: oscillation1216 n

/-- Per-frame detector output as the Pipeline Driver consumes it: none when
the frame carried no landmarks, otherwise the tracked angle (when the angle
engine could produce one) and the frame posture deviation. -/
structure FrameSample where
  angle : Option ℚ
  deviation : ℚ
deriving DecidableEq

/-- The per-session pipeline state: one repetition counter, one session
aggregator, one posture-smoothing history (section 5). -/
structure PipelineState where
  counter : RepState
  agg : SessionAgg
  posture : PostureState
deriving DecidableEq

/-- The outgoing per-frame feedback record (section 6). -/
structure FeedbackMsg where
  metrics : SessionMetrics
  postureCorrect : Bool
  status : String
  repJustCompleted : Bool
deriving DecidableEq

/-- Modelled from the spec: the Pipeline Driver per-frame step (section
4.5): posture analyzer, repetition counter, then aggregator; a frame with
no landmarks still yields a feedback message built from the last known
Session Metrics with the explicit no-pose status, feeds the stall counter
exactly once, and leaves the aggregator untouched. -/
def processFrame (cfg : RepConfig) (s : PipelineState)
    (input : Option FrameSample) : PipelineState × FeedbackMsg :=
  match input with
  | none =>
      let out := repStep cfg s.counter none
      ({ s with counter := out.1 },
       { metrics := s.agg.snapshot
         postureCorrect := s.posture.isCorrect
         status := "no pose detected"
         repJustCompleted := false })
  | some f =>
      let p2 := postureStep s.posture f.deviation
      let out := repStep cfg s.counter (f.angle.map (fun a => (a, p2.isCorrect)))
      let a2 :=
        match s.agg.onPostureVerdict p2.isCorrect f.deviation with
        | .ok a => a
        | .error _ => s.agg
      let a3 :=
        match out.2 with
        | some e =>
            match a2.onRepCompleted e.correct with
            | .ok a => a
            | .error _ => a2
        | none => a2
      ({ counter := out.1, agg := a3, posture := p2 },
       { metrics := a3.snapshot
         postureCorrect := p2.isCorrect
         status := if p2.isCorrect then "posture correct" else "posture incorrect"
         repJustCompleted := out.2.isSome })

/-- A three-dimensional landmark position. -/
structure Vec3 where
  x : ℝ
  y : ℝ
  z : ℝ

/-- Dot product of two position vectors. -/
def dot3 (u v : Vec3) : ℝ := u.x * v.x + u.y * v.y + u.z * v.z

/-- Euclidean norm of a position vector. -/
noncomputable def norm3 (v : Vec3) : ℝ := Real.sqrt (dot3 v v)

/-- Componentwise difference of positions. -/
def vsub (a b : Vec3) : Vec3 := { x := a.x - b.x, y := a.y - b.y, z := a.z - b.z }

/-- Scalar multiple of a position vector. -/
def vsmul (r : ℝ) (v : Vec3) : Vec3 := { x := r * v.x, y := r * v.y, z := r * v.z }

/-- Modelled from the spec: the Angle Engine (section 4.1): form vectors BA
and BC, take the arccos of their normalized dot product, and report the
angle at the vertex B in degrees. -/
noncomputable def angleABC (a b c : Vec3) : ℝ :=
  Real.arccos (dot3 (vsub a b) (vsub c b) / (norm3 (vsub a b) * norm3 (vsub c b)))
    * 180 / Real.pi

/-! Helper lemmas. -/

/-- A numeric field that is absent, null, or zero maps to the number 0
under the Number(field or 0) idiom. -/
theorem jsNumber_or_zero (v : JSValue) (h : absentNullOrZero v) :
    jsNumber (jsOr v (.num 0)) = .num 0 := by
  rcases h with h | h | h <;> subst h <;> decide

/-! Claim theorems. -/

/-- C2: the performance rating is derived from the posture accuracy by the
fixed thresholds: at least 90 gives excellent, at least 75 and below 90
gives good, anything else needs-improvement; the rating computed in
handleStopSession, the badge computed from the accuracy in the
session-summary component, and the badge the summary page derives from the
stored rating string all realize the same thresholds for every accuracy. -/
theorem rating_thresholds_consistent (a : ℚ) :
    handleStopSessionRating a = specRating a ∧
    sessionSummaryBadgeLabel a = summaryPageBadgeLabel (specRating a) ∧
    summaryPageBadgeLabel (handleStopSessionRating a) =
      summaryPageBadgeLabel (specRating a) := by
  unfold handleStopSessionRating specRating sessionSummaryBadgeLabel summaryPageBadgeLabel
  rcases le_or_lt 90 a with h90 | h90
  · simp [ge_iff_le, h90]
  · rcases le_or_lt 75 a with h75 | h75
    · simp [ge_iff_le, not_le.mpr h90, h75, h90]
    · simp [ge_iff_le, not_le.mpr h90, not_le.mpr h75]

/-- C9: in the session page message handler, every numeric metric passes
through Number(field or 0), so an absent, null, or zero field is stored as
exactly the number 0 and never NaN; posture_correct is coerced with
JavaScript truthiness and a missing feedback string defaults to
"Analyzing...". -/
theorem ws_mapping_defaults (m : WSMessage)
    (h1 : absentNullOrZero m.reps) (h2 : absentNullOrZero m.correct_reps)
    (h3 : absentNullOrZero m.incorrect_reps) (h4 : absentNullOrZero m.accuracy)
    (h5 : absentNullOrZero m.misalignments) (h6 : absentNullOrZero m.alerts)
    (h7 : absentNullOrZero m.joint_deviation)
    (h8 : m.feedback = .undef ∨ m.feedback = .null) :
    (mapWSMessage m).reps = .num 0 ∧
    (mapWSMessage m).correct_reps = .num 0 ∧
    (mapWSMessage m).incorrect_reps = .num 0 ∧
    (mapWSMessage m).accuracy = .num 0 ∧
    (mapWSMessage m).misalignments = .num 0 ∧
    (mapWSMessage m).alerts = .num 0 ∧
    (mapWSMessage m).joint_deviation = .num 0 ∧
    (mapWSMessage m).reps ≠ .nan ∧
    (mapWSMessage m).feedback = .str "Analyzing..." ∧
    (mapWSMessage m).posture_correct = m.posture_correct.truthy := by
  have hf : jsOr m.feedback (.str "Analyzing...") = .str "Analyzing..." := by
    rcases h8 with h | h <;> rw [h] <;> decide
  refine ⟨jsNumber_or_zero _ h1, jsNumber_or_zero _ h2, jsNumber_or_zero _ h3,
    jsNumber_or_zero _ h4, jsNumber_or_zero _ h5, jsNumber_or_zero _ h6,
    jsNumber_or_zero _ h7, ?_, hf, rfl⟩
  rw [show (mapWSMessage m).reps = jsNumber (jsOr m.reps (.num 0)) from rfl,
    jsNumber_or_zero _ h1]
  decide

/-- C9 witness on a message with every field null: each numeric metric is
stored as the number 0, feedback defaults, posture_correct is false. -/
theorem ws_mapping_defaults_witness :
    (absentNullOrZero nullWSMessage.reps ∧
     absentNullOrZero nullWSMessage.correct_reps ∧
     absentNullOrZero nullWSMessage.incorrect_reps ∧
     absentNullOrZero nullWSMessage.accuracy ∧
     absentNullOrZero nullWSMessage.misalignments ∧
     absentNullOrZero nullWSMessage.alerts ∧
     absentNullOrZero nullWSMessage.joint_deviation ∧
     (nullWSMessage.feedback = .undef ∨ nullWSMessage.feedback = .null)) ∧
    ((mapWSMessage nullWSMessage).reps = .num 0 ∧
     (mapWSMessage nullWSMessage).correct_reps = .num 0 ∧
     (mapWSMessage nullWSMessage).incorrect_reps = .num 0 ∧
     (mapWSMessage nullWSMessage).accuracy = .num 0 ∧
     (mapWSMessage nullWSMessage).misalignments = .num 0 ∧
     (mapWSMessage nullWSMessage).alerts = .num 0 ∧
     (mapWSMessage nullWSMessage).joint_deviation = .num 0 ∧
     (mapWSMessage nullWSMessage).reps ≠ .nan ∧
     (mapWSMessage nullWSMessage).feedback = .str "Analyzing..." ∧
     (mapWSMessage nullWSMessage).posture_correct =
       nullWSMessage.posture_correct.truthy) :=
  ⟨by decide,
   ws_mapping_defaults nullWSMessage (by decide) (by decide) (by decide) (by decide)
     (by decide) (by decide) (by decide) (by decide)⟩

/-- C10: the summary page consistency score is round(correct over total
times 100) for a positive rep total and 0 for a zero total, and the
displayed stability score equals max(0, round(100 minus 15 times the
average joint deviation minus 5 times the misalignment count)), hence is
never negative. -/
theorem summary_scores (d : ℚ) (k t c : ℕ) (ht : 0 < t) :
    displayedStability d k = max 0 (jsRound (100 - 15 * d - 5 * (k : ℚ))) ∧
    0 ≤ displayedStability d k ∧
    consistencyScore 0 c = 0 ∧
    consistencyScore t c = jsRound ((c : ℚ) / (t : ℚ) * 100) := by
  refine ⟨?_, le_max_left 0 _, by simp [consistencyScore], by simp [consistencyScore, ht]⟩
  unfold displayedStability stabilityScore
  have hx : (100 : ℚ) - d * 15 - (k : ℚ) * 5 = 100 - 15 * d - 5 * (k : ℚ) := by ring
  rcases le_or_lt 0 ((100 : ℚ) - d * 15 - (k : ℚ) * 5) with h | h
  · rw [max_eq_right h, hx]
  · rw [max_eq_left h.le]
    have hLHS : jsRound 0 = 0 := by norm_num [jsRound]
    have h3 : (100 : ℚ) - 15 * d - 5 * (k : ℚ) < 0 := by rw [← hx]; exact h
    have hRHS : jsRound (100 - 15 * d - 5 * (k : ℚ)) ≤ 0 := by
      unfold jsRound
      have h2 : (100 : ℚ) - 15 * d - 5 * (k : ℚ) + 1 / 2 ≤ 0 + 1 / 2 := by
        linarith
      calc ⌊(100 : ℚ) - 15 * d - 5 * (k : ℚ) + 1 / 2⌋ ≤ ⌊(0 : ℚ) + 1 / 2⌋ :=
            Int.floor_le_floor h2
        _ = 0 := by norm_num
    rw [hLHS, max_eq_left hRHS]
    simp

/-- C10 witness at a concrete metric combination. -/
theorem summary_scores_witness :
    0 < 4 ∧
    (displayedStability 1 2 = max 0 (jsRound (100 - 15 * 1 - 5 * (2 : ℚ))) ∧
     0 ≤ displayedStability 1 2 ∧
     consistencyScore 0 3 = 0 ∧
     consistencyScore 4 3 = jsRound ((3 : ℚ) / (4 : ℚ) * 100)) :=
  ⟨by decide, summary_scores 1 2 4 3 (by decide)⟩

/-- C3 counterexample: the externally visible postureAccuracy before any
posture verdict is processed is the SessionProvider default, which is 95,
not 0. -/
theorem sessionProvider_initial_accuracy_not_zero :
    sessionProviderInit.postureAccuracy = 95 ∧
    ¬ sessionProviderInit.postureAccuracy = 0 := by
  decide

/-- C3 amended: the Session Aggregator snapshot reports postureAccuracy 0
whenever zero frames were evaluated (explicit zero-frames guard, no
division by zero), in particular for a fresh aggregator; the frontend
session context however initializes its visible postureAccuracy to 95
until a verdict arrives. -/
theorem snapshot_accuracy_zero_frames (s : SessionAgg) (h : s.totalFrames = 0) :
    s.snapshot.postureAccuracy = 0 ∧
    SessionAgg.start.snapshot.postureAccuracy = 0 ∧
    sessionProviderInit.postureAccuracy = 95 := by
  refine ⟨?_, by decide, by decide⟩
  simp [SessionAgg.snapshot, h]

/-- C3 amended witness at the fresh aggregator. -/
theorem snapshot_accuracy_zero_frames_witness :
    SessionAgg.start.totalFrames = 0 ∧
    (SessionAgg.start.snapshot.postureAccuracy = 0 ∧
     SessionAgg.start.snapshot.postureAccuracy = 0 ∧
     sessionProviderInit.postureAccuracy = 95) :=
  ⟨rfl, snapshot_accuracy_zero_frames SessionAgg.start rfl⟩

/-- C4: after finalize the aggregator is terminal and every further update
call is rejected with an explicit failure, so no mutated state is ever
produced from the frozen aggregator. -/
theorem finalized_updates_rejected (s : SessionAgg) (d : ℕ) (b c : Bool) (dev : ℚ) :
    (s.finalize d).finalized = true ∧
    (s.finalize d).onRepCompleted b = .error "session already finalized" ∧
    (s.finalize d).onPostureVerdict c dev = .error "session already finalized" := by
  unfold SessionAgg.finalize SessionAgg.onRepCompleted SessionAgg.onPostureVerdict
  simp

/-- C5: a frame carrying no landmarks still produces a feedback message:
the driver emits the last known Session Metrics with the explicit no-pose
status, leaves the aggregator untouched, ticks the counter stall logic
exactly once, and reports no completed rep; processFrame is a total
function, so per-frame processing always yields a message and no failure
escapes it. -/
theorem no_landmarks_feedback (cfg : RepConfig) (s : PipelineState) :
    (processFrame cfg s none).2.status = "no pose detected" ∧
    (processFrame cfg s none).2.metrics = s.agg.snapshot ∧
    (processFrame cfg s none).1.agg = s.agg ∧
    (processFrame cfg s none).1.counter = (repStep cfg s.counter none).1 ∧
    (processFrame cfg s none).2.repJustCompleted = false := by
  unfold processFrame
  exact ⟨rfl, rfl, rfl, rfl, rfl⟩

/-- Invariant of the posture verdict state: over samples bounded by 16
degrees, a correct verdict with a moving average in the 0 to 16 range stays
correct, because the smoothed deviation can never exceed the upper
hysteresis threshold of 17.5. -/
theorem postureRun_stays_correct (devs : List ℚ)
    (h : ∀ d ∈ devs, 0 ≤ d ∧ d ≤ 16) :
    ∀ s : PostureState, 0 ≤ s.ema → s.ema ≤ 16 → s.isCorrect = true →
      (postureRun s devs).isCorrect = true ∧
      0 ≤ (postureRun s devs).ema ∧ (postureRun s devs).ema ≤ 16 := by
  induction devs with
  | nil => intro s h0 h16 hc; exact ⟨hc, h0, h16⟩
  | cons d ds ih =>
      intro s h0 h16 hc
      have hd := h d (List.mem_cons_self ..)
      have hrest : ∀ x ∈ ds, 0 ≤ x ∧ x ≤ 16 :=
        fun x hx => h x (List.mem_cons_of_mem _ hx)
      have hstep : postureStep s d =
          { ema := postureAlpha * d + (1 - postureAlpha) * s.ema, isCorrect := true } := by
        unfold postureStep
        rw [hc]
        simp only [if_true, PostureState.mk.injEq, true_and]
        rw [decide_eq_true_iff]
        unfold postureAlpha postureThreshold postureBand
        linarith [hd.1, hd.2, h0, h16]
      have he0 : (0 : ℚ) ≤ postureAlpha * d + (1 - postureAlpha) * s.ema := by
        unfold postureAlpha; linarith [hd.1, h0]
      have he16 : postureAlpha * d + (1 - postureAlpha) * s.ema ≤ 16 := by
        unfold postureAlpha; linarith [hd.2, h16]
      have hrun : postureRun s (d :: ds) = postureRun (postureStep s d) ds := by
        simp [postureRun]
      rw [hrun, hstep]
      exact ih hrest _ he0 he16 rfl

/-- C7: the posture verdict uses hysteresis: over any deviation sequence
whose samples all equal 12 or 16 degrees (in particular every sequence
oscillating between 12 and 16 around the 15-degree threshold with the
2.5-degree hysteresis band), the boolean verdict starting correct never
flips, so a single sample can never toggle the displayed status. -/
theorem posture_hysteresis_no_toggle (devs : List ℚ)
    (h : ∀ d ∈ devs, d = 12 ∨ d = 16) :
    (postureRun PostureState.start devs).isCorrect = true := by
  have h2 : ∀ d ∈ devs, 0 ≤ d ∧ d ≤ 16 := by
    intro d hd
    rcases h d hd with rfl | rfl <;> norm_num
  exact (postureRun_stays_correct devs h2 PostureState.start
    (le_refl 0) (by norm_num [PostureState.start]) rfl).1

/-- C7 witness on a six-sample oscillation between 12 and 16 degrees. -/
theorem posture_hysteresis_no_toggle_witness :
    (∀ d ∈ oscillation1216 6, d = 12 ∨ d = 16) ∧
    (postureRun PostureState.start (oscillation1216 6)).isCorrect = true :=
  ⟨by decide, posture_hysteresis_no_toggle (oscillation1216 6) (by decide)⟩

/-- A stalled frame never makes the counter emit a rep event. -/
theorem repStep_none_no_event (cfg : RepConfig) (s : RepState) :
    (repStep cfg s none).2 = none := by
  simp only [repStep]
  split
  · rfl
  · split <;> rfl

/-- A run of stalled frames emits no rep events at all. -/
theorem repRun_none_events (cfg : RepConfig) (k : ℕ) :
    ∀ s : RepState, (repRun cfg s (List.replicate k none)).2 = [] := by
  induction k with
  | zero => intro s; rfl
  | succ n ih =>
      intro s
      rw [List.replicate_succ]
      simp only [repRun]
      rw [repStep_none_no_event]
      exact ih _

/-- From an idle counter, stalled frames change nothing. -/
theorem repRun_none_idle (cfg : RepConfig) (k : ℕ) (s : RepState)
    (h : s.phase = .idle) :
    repRun cfg s (List.replicate k none) = (s, []) := by
  induction k with
  | zero => rfl
  | succ n ih =>
      have hstep : repStep cfg s none = (s, none) := by
        unfold repStep; simp [h]
      rw [List.replicate_succ]
      simp only [repRun, hstep]
      rw [ih]

/-- Enough stalled frames always drive the counter back to idle: once the
stall count would exceed the window the state resets. -/
theorem repRun_stall_to_idle (cfg : RepConfig) :
    ∀ (k : ℕ) (s : RepState), 1 ≤ k → cfg.stallWindow < s.stallCount + k →
      (repRun cfg s (List.replicate k none)).1.phase = .idle := by
  intro k
  induction k with
  | zero => intro s h1; exact absurd h1 (by omega)
  | succ n ih =>
      intro s _ hwin
      by_cases hidle : s.phase = .idle
      · rw [repRun_none_idle cfg (n + 1) s hidle]
        exact hidle
      · rw [List.replicate_succ]
        simp only [repRun]
        by_cases hreset : cfg.stallWindow < s.stallCount + 1
        · have hstep : repStep cfg s none = (RepState.start, none) := by
            unfold repStep; simp [hidle, hreset]
          rw [hstep]
          simp only
          rw [repRun_none_idle cfg n RepState.start rfl]
          rfl
        · have hstep : repStep cfg s none =
              ({ s with stallCount := s.stallCount + 1 }, none) := by
            unfold repStep; simp [hidle, hreset]
          rw [hstep]
          simp only
          have hn : 1 ≤ n := by omega
          exact ih { s with stallCount := s.stallCount + 1 } hn (by simp; omega)

/-- C6: if landmark data is absent for longer than the configured stall
window while a rep is in progress (the counter in any non-idle phase), the
in-progress rep is discarded: the counter returns to idle and no
rep-completed event is produced during the aborted cycle. -/
theorem stall_aborts_rep (cfg : RepConfig) (s : RepState) (_h : s.phase ≠ .idle) :
    (repRun cfg s (List.replicate (cfg.stallWindow + 1) none)).1.phase = .idle ∧
    (repRun cfg s (List.replicate (cfg.stallWindow + 1) none)).2 = [] :=
  ⟨repRun_stall_to_idle cfg (cfg.stallWindow + 1) s (by omega) (by omega),
   repRun_none_events cfg (cfg.stallWindow + 1) s⟩

/-- C6 witness: a squat counter mid-descent is aborted to idle by eleven
missing frames without emitting a rep. -/
theorem stall_aborts_rep_witness :
    ({ phase := .descending, extremum := 100, framesInPhase := 0, stallCount := 0
       allCorrect := true } : RepState).phase ≠ .idle ∧
    ((repRun squatConfig
        { phase := .descending, extremum := 100, framesInPhase := 0
          stallCount := 0, allCorrect := true }
        (List.replicate (squatConfig.stallWindow + 1) none)).1.phase = .idle ∧
     (repRun squatConfig
        { phase := .descending, extremum := 100, framesInPhase := 0
          stallCount := 0, allCorrect := true }
        (List.replicate (squatConfig.stallWindow + 1) none)).2 = []) :=
  ⟨by decide,
   stall_aborts_rep squatConfig
     { phase := .descending, extremum := 100, framesInPhase := 0
       stallCount := 0, allCorrect := true } (by decide)⟩

/-- Peeling one angle off the correct-verdict input stream. -/
theorem inputsOfAngles_cons (a : ℚ) (xs : List ℚ) :
    inputsOfAngles (a :: xs) = some (a, true) :: inputsOfAngles xs := by
  simp [inputsOfAngles]

/-- The correct-verdict input stream distributes over append. -/
theorem inputsOfAngles_append (xs ys : List ℚ) :
    inputsOfAngles (xs ++ ys) = inputsOfAngles xs ++ inputsOfAngles ys := by
  simp [inputsOfAngles]

/-- Running the counter over an appended input list composes the two runs
and concatenates their events. -/
theorem repRun_append (cfg : RepConfig) (s : RepState)
    (l1 l2 : List (Option (ℚ × Bool))) :
    repRun cfg s (l1 ++ l2) =
      ((repRun cfg (repRun cfg s l1).1 l2).1,
       (repRun cfg s l1).2 ++ (repRun cfg (repRun cfg s l1).1 l2).2) := by
  induction l1 generalizing s with
  | nil => simp [repRun]
  | cons i l ih =>
      simp only [List.cons_append, repRun, List.append_eq]
      rw [ih]
      cases (repStep cfg s i).2 <;> simp

/-- From idle, a sample below the descent threshold starts a rep. -/
theorem repStep_idle_descend (cfg : RepConfig) (s : RepState) (a : ℚ)
    (hs : s.phase = .idle) (h : a < cfg.top - cfg.hysteresis) :
    repStep cfg s (some (a, true)) =
      ({ phase := .descending, extremum := a, framesInPhase := 0, stallCount := 0
         allCorrect := true }, none) := by
  simp only [repStep, hs]
  rw [if_pos h]

/-- A descending counter stays descending on a sample above the bottom
band. -/
theorem repStep_descending_stay (cfg : RepConfig) (e : ℚ) (k : ℕ) (a : ℚ)
    (h : cfg.bottom + cfg.hysteresis ≤ a) :
    repStep cfg
      { phase := .descending, extremum := e, framesInPhase := k, stallCount := 0
        allCorrect := true } (some (a, true)) =
      ({ phase := .descending, extremum := min e a, framesInPhase := k
         stallCount := 0, allCorrect := true }, none) := by
  simp only [repStep]
  rw [if_neg (not_lt.mpr h)]
  simp

/-- A descending counter moves to the bottom phase on a sample below the
bottom band. -/
theorem repStep_descending_to_bottom (cfg : RepConfig) (e : ℚ) (k : ℕ) (a : ℚ)
    (h : a < cfg.bottom + cfg.hysteresis) :
    repStep cfg
      { phase := .descending, extremum := e, framesInPhase := k, stallCount := 0
        allCorrect := true } (some (a, true)) =
      ({ phase := .bottom, extremum := min e a, framesInPhase := 1
         stallCount := 0, allCorrect := true }, none) := by
  simp only [repStep]
  rw [if_pos h]
  simp

/-- A bottom-phase counter holds and counts a sample inside the bottom
band. -/
theorem repStep_bottom_stay (cfg : RepConfig) (e : ℚ) (k : ℕ) (a : ℚ)
    (h : a ≤ cfg.bottom + cfg.hysteresis) :
    repStep cfg
      { phase := .bottom, extremum := e, framesInPhase := k, stallCount := 0
        allCorrect := true } (some (a, true)) =
      ({ phase := .bottom, extremum := min e a, framesInPhase := k + 1
         stallCount := 0, allCorrect := true }, none) := by
  simp only [repStep]
  rw [if_pos h]
  simp

/-- A confirmed bottom-phase counter starts ascending on a sample above the
bottom band. -/
theorem repStep_bottom_to_ascending (cfg : RepConfig) (e : ℚ) (k : ℕ) (a : ℚ)
    (h : cfg.bottom + cfg.hysteresis < a) (hk : cfg.debounce ≤ k) :
    repStep cfg
      { phase := .bottom, extremum := e, framesInPhase := k, stallCount := 0
        allCorrect := true } (some (a, true)) =
      ({ phase := .ascending, extremum := e, framesInPhase := k
         stallCount := 0, allCorrect := true }, none) := by
  simp only [repStep]
  rw [if_neg (not_le.mpr h), if_pos hk]
  simp

/-- An ascending counter stays ascending on a sample at or below the top
band. -/
theorem repStep_ascending_stay (cfg : RepConfig) (e : ℚ) (k : ℕ) (a : ℚ)
    (h : ¬(cfg.top - cfg.hysteresis < a)) :
    repStep cfg
      { phase := .ascending, extremum := e, framesInPhase := k, stallCount := 0
        allCorrect := true } (some (a, true)) =
      ({ phase := .ascending, extremum := e, framesInPhase := k
         stallCount := 0, allCorrect := true }, none) := by
  simp only [repStep]
  rw [if_neg h]
  simp

/-- An ascending counter crossing back above the top band returns to idle
and emits a rep, correct when every sampled verdict was. -/
theorem repStep_ascending_emit (cfg : RepConfig) (e : ℚ) (k : ℕ) (a : ℚ)
    (h : cfg.top - cfg.hysteresis < a) :
    repStep cfg
      { phase := .ascending, extremum := e, framesInPhase := k, stallCount := 0
        allCorrect := true } (some (a, true)) =
      (RepState.start, some { correct := true }) := by
  simp only [repStep]
  rw [if_pos h]
  simp

/-- The counter stays descending across any segment of in-band samples. -/
theorem repRun_descending (cfg : RepConfig) (p : List ℚ) :
    ∀ (e : ℚ) (k : ℕ),
      (∀ a ∈ p, cfg.bottom + cfg.hysteresis ≤ a ∧ a < cfg.top - cfg.hysteresis) →
      ∃ e2, repRun cfg
        { phase := .descending, extremum := e, framesInPhase := k, stallCount := 0
          allCorrect := true } (inputsOfAngles p) =
        ({ phase := .descending, extremum := e2, framesInPhase := k
           stallCount := 0, allCorrect := true }, []) := by
  induction p with
  | nil => intro e k _; exact ⟨e, rfl⟩
  | cons a p ih =>
      intro e k h
      have ha := h a (List.mem_cons_self ..)
      obtain ⟨e2, he2⟩ := ih (min e a) k (fun x hx => h x (List.mem_cons_of_mem _ hx))
      refine ⟨e2, ?_⟩
      rw [inputsOfAngles_cons]
      simp only [repRun]
      rw [repStep_descending_stay cfg e k a ha.1]
      simpa using he2

/-- The counter holds in the bottom phase across any segment of samples in
the bottom band, counting each frame. -/
theorem repRun_bottom (cfg : RepConfig) (q : List ℚ) :
    ∀ (e : ℚ) (k : ℕ),
      (∀ a ∈ q, a ≤ cfg.bottom + cfg.hysteresis) →
      ∃ e2, repRun cfg
        { phase := .bottom, extremum := e, framesInPhase := k, stallCount := 0
          allCorrect := true } (inputsOfAngles q) =
        ({ phase := .bottom, extremum := e2, framesInPhase := k + q.length
           stallCount := 0, allCorrect := true }, []) := by
  induction q with
  | nil => intro e k _; exact ⟨e, rfl⟩
  | cons a q ih =>
      intro e k h
      have ha := h a (List.mem_cons_self ..)
      obtain ⟨e2, he2⟩ := ih (min e a) (k + 1) (fun x hx => h x (List.mem_cons_of_mem _ hx))
      refine ⟨e2, ?_⟩
      rw [inputsOfAngles_cons]
      simp only [repRun]
      rw [repStep_bottom_stay cfg e k a ha]
      have hlen : k + 1 + q.length = k + (a :: q).length := by
        simp [List.length_cons]; omega
      rw [hlen] at he2
      simpa using he2

/-- The counter stays ascending across any segment of samples at or below
the top band. -/
theorem repRun_ascending (cfg : RepConfig) (r : List ℚ) :
    ∀ (e : ℚ) (k : ℕ),
      (∀ a ∈ r, ¬(cfg.top - cfg.hysteresis < a)) →
      repRun cfg
        { phase := .ascending, extremum := e, framesInPhase := k, stallCount := 0
          allCorrect := true } (inputsOfAngles r) =
        ({ phase := .ascending, extremum := e, framesInPhase := k
           stallCount := 0, allCorrect := true }, []) := by
  induction r with
  | nil => intro e k _; rfl
  | cons a r ih =>
      intro e k h
      have ha := h a (List.mem_cons_self ..)
      rw [inputsOfAngles_cons]
      simp only [repRun]
      rw [repStep_ascending_stay cfg e k a ha]
      simpa using ih e k (fun x hx => h x (List.mem_cons_of_mem _ hx))

/-- One clean cycle drives the counter from idle back to idle and emits
exactly one rep, classified correct when every verdict was correct. -/
theorem repRun_clean_cycle (cfg : RepConfig) (xs : List ℚ) (h : CleanCycle cfg xs) :
    repRun cfg RepState.start (inputsOfAngles xs) =
      (RepState.start, [{ correct := true }]) := by
  obtain ⟨p, q, r, t, hxs, hp0, hp, hq0, hqlen, hq, hr0, hr, ht⟩ := h
  obtain ⟨a1, p1, rfl⟩ := List.exists_cons_of_ne_nil hp0
  obtain ⟨b1, q1, rfl⟩ := List.exists_cons_of_ne_nil hq0
  obtain ⟨c1, r1, rfl⟩ := List.exists_cons_of_ne_nil hr0
  subst hxs
  have ha1 := hp a1 (List.mem_cons_self ..)
  have hb1 := hq b1 (List.mem_cons_self ..)
  have hc1 := hr c1 (List.mem_cons_self ..)
  obtain ⟨e1, he1⟩ :=
    repRun_descending cfg p1 a1 0 (fun x hx => hp x (List.mem_cons_of_mem _ hx))
  obtain ⟨e2, he2⟩ :=
    repRun_bottom cfg q1 (min e1 b1) 1
      (fun x hx => le_of_lt (hq x (List.mem_cons_of_mem _ hx)))
  have he3 :=
    repRun_ascending cfg r1 e2 (1 + q1.length)
      (fun x hx => not_lt.mpr (hr x (List.mem_cons_of_mem _ hx)).2)
  have hdeb : cfg.debounce ≤ 1 + q1.length := by
    have := hqlen
    simp [List.length_cons] at this
    omega
  simp only [List.append_assoc, List.cons_append]
  rw [inputsOfAngles_cons]
  simp only [repRun]
  rw [repStep_idle_descend cfg RepState.start a1 rfl ha1.2]
  simp only
  rw [inputsOfAngles_append, repRun_append, he1]
  simp only
  rw [inputsOfAngles_cons]
  simp only [repRun]
  rw [repStep_descending_to_bottom cfg e1 0 b1 hb1]
  simp only
  rw [inputsOfAngles_append, repRun_append, he2]
  simp only
  rw [inputsOfAngles_cons]
  simp only [repRun]
  rw [repStep_bottom_to_ascending cfg e2 (1 + q1.length) c1 hc1.1 hdeb]
  simp only
  rw [inputsOfAngles_append, repRun_append, he3]
  simp only
  rw [inputsOfAngles_cons]
  simp only [repRun, inputsOfAngles]
  rw [repStep_ascending_emit cfg e2 (1 + q1.length) t ht]
  simp [repRun]

/-- A concatenation of clean cycles emits exactly one correct rep per
cycle and leaves the counter idle. -/
theorem repRun_clean_cycles (cfg : RepConfig) (cycles : List (List ℚ))
    (hc : ∀ c ∈ cycles, CleanCycle cfg c) :
    repRun cfg RepState.start (inputsOfAngles cycles.flatten) =
      (RepState.start, List.replicate cycles.length { correct := true }) := by
  induction cycles with
  | nil => rfl
  | cons c cs ih =>
      have h1 := repRun_clean_cycle cfg c (hc c (List.mem_cons_self ..))
      have h2 := ih (fun x hx => hc x (List.mem_cons_of_mem _ hx))
      rw [List.flatten_cons, inputsOfAngles_append, repRun_append, h1]
      simp only
      rw [h2]
      simp [List.replicate_succ]

/-- Feeding a run of correct rep events into a live aggregator adds one to
both the total and the correct rep counters per event. -/
theorem applyRepEvents_replicate_true (n : ℕ) :
    ∀ s : SessionAgg, s.finalized = false →
      (s.applyRepEvents (List.replicate n { correct := true })).totalReps =
        s.totalReps + n ∧
      (s.applyRepEvents (List.replicate n { correct := true })).correctReps =
        s.correctReps + n := by
  induction n with
  | zero => intro s _; simp [SessionAgg.applyRepEvents]
  | succ m ih =>
      intro s h
      have hstep : s.onRepCompleted true =
          .ok { s with totalReps := s.totalReps + 1
                       correctReps := s.correctReps + 1
                       incorrectReps := s.incorrectReps + 0 } := by
        unfold SessionAgg.onRepCompleted
        simp [h]
      have hrec := ih
        { s with totalReps := s.totalReps + 1
                 correctReps := s.correctReps + 1
                 incorrectReps := s.incorrectReps + 0 } h
      rw [List.replicate_succ]
      simp only [SessionAgg.applyRepEvents, List.foldl_cons, hstep]
      refine ⟨?_, ?_⟩
      · have := hrec.1
        simp only [SessionAgg.applyRepEvents] at this
        rw [this]
        omega
      · have := hrec.2
        simp only [SessionAgg.applyRepEvents] at this
        rw [this]
        omega

/-- C1: an angle sequence that is a concatenation of clean rep cycles (for
the squat thresholds 160 and 80 with hysteresis 5), with every posture
verdict correct throughout, makes the Repetition Counter emit exactly one
completed rep per cycle, each classified correct, and feeding those events
into the Session Aggregator yields totalReps and correctReps both equal to
the number of cycles. -/
theorem clean_cycles_count_exact (cycles : List (List ℚ))
    (hc : ∀ c ∈ cycles, CleanCycle squatConfig c) :
    (repRun squatConfig RepState.start (inputsOfAngles cycles.flatten)).2 =
      List.replicate cycles.length { correct := true } ∧
    (SessionAgg.start.applyRepEvents
      (repRun squatConfig RepState.start (inputsOfAngles cycles.flatten)).2).totalReps =
      cycles.length ∧
    (SessionAgg.start.applyRepEvents
      (repRun squatConfig RepState.start (inputsOfAngles cycles.flatten)).2).correctReps =
      cycles.length := by
  have h := repRun_clean_cycles squatConfig cycles hc
  have hev : (repRun squatConfig RepState.start (inputsOfAngles cycles.flatten)).2 =
      List.replicate cycles.length { correct := true } := by rw [h]
  have hagg := applyRepEvents_replicate_true cycles.length SessionAgg.start rfl
  refine ⟨hev, ?_, ?_⟩
  · rw [hev, hagg.1]; simp [SessionAgg.start]
  · rw [hev, hagg.2]; simp [SessionAgg.start]

/-- C1 witness: ten concrete clean squat cycles oscillating between 170 and
70 degrees give exactly ten correct reps and aggregate to totalReps and
correctReps of ten. -/
theorem clean_cycles_count_exact_witness :
    (∀ c ∈ List.replicate 10 squatCycleExample, CleanCycle squatConfig c) ∧
    ((repRun squatConfig RepState.start
        (inputsOfAngles (List.replicate 10 squatCycleExample).flatten)).2 =
      List.replicate 10 { correct := true } ∧
     (SessionAgg.start.applyRepEvents
        (repRun squatConfig RepState.start
          (inputsOfAngles (List.replicate 10 squatCycleExample).flatten)).2).totalReps = 10 ∧
     (SessionAgg.start.applyRepEvents
        (repRun squatConfig RepState.start
          (inputsOfAngles (List.replicate 10 squatCycleExample).flatten)).2).correctReps = 10) :=
  have hc : ∀ c ∈ List.replicate 10 squatCycleExample, CleanCycle squatConfig c := by
    intro c hcm
    rw [List.eq_of_mem_replicate hcm]
    exact ⟨[150, 120, 90], [75, 70, 75], [90, 120, 150], 170, rfl, by decide,
      by norm_num [squatConfig], by decide, by norm_num [squatConfig],
      by norm_num [squatConfig], by decide, by norm_num [squatConfig],
      by norm_num [squatConfig]⟩
  ⟨hc, clean_cycles_count_exact (List.replicate 10 squatCycleExample) hc⟩

/-- The self dot product of a position vector is nonnegative. -/
theorem dot3_self_nonneg (v : Vec3) : 0 ≤ dot3 v v := by
  unfold dot3
  nlinarith [mul_self_nonneg v.x, mul_self_nonneg v.y, mul_self_nonneg v.z]

/-- Degrees conversion sends pi to 180. -/
theorem pi_deg : Real.pi * 180 / Real.pi = 180 := by
  rw [mul_comm, mul_div_assoc, div_self Real.pi_ne_zero, mul_one]

/-- C8: the Angle Engine always reports an angle within 0 and 180 degrees;
a colinear configuration with the vertex B between the ends (BC a negative
multiple of a nonzero BA) yields exactly 180 degrees, and a right-angle
configuration (BA orthogonal to BC) yields exactly 90 degrees. -/
theorem angle_engine_range_straight_right (a b c : Vec3) (r : ℝ)
    (hne : dot3 (vsub a b) (vsub a b) ≠ 0)
    (hcol : vsub c b = vsmul r (vsub a b)) (hr : r < 0) :
    (∀ x y z : Vec3, 0 ≤ angleABC x y z ∧ angleABC x y z ≤ 180) ∧
    angleABC a b c = 180 ∧
    (∀ x y z : Vec3, dot3 (vsub x y) (vsub z y) = 0 → angleABC x y z = 90) := by
  refine ⟨?_, ?_, ?_⟩
  · intro x y z
    unfold angleABC
    constructor
    · exact div_nonneg (mul_nonneg (Real.arccos_nonneg _) (by norm_num)) Real.pi_pos.le
    · calc Real.arccos (dot3 (vsub x y) (vsub z y) /
              (norm3 (vsub x y) * norm3 (vsub z y))) * 180 / Real.pi
          ≤ Real.pi * 180 / Real.pi := by
            apply (div_le_div_iff_of_pos_right Real.pi_pos).mpr
            exact mul_le_mul_of_nonneg_right (Real.arccos_le_pi _) (by norm_num)
        _ = 180 := pi_deg
  · have hd0 : 0 ≤ dot3 (vsub a b) (vsub a b) := dot3_self_nonneg _
    have h1 : dot3 (vsub a b) (vsub c b) = r * dot3 (vsub a b) (vsub a b) := by
      rw [hcol]; unfold dot3 vsmul; ring
    have h2 : dot3 (vsmul r (vsub a b)) (vsmul r (vsub a b)) =
        r ^ 2 * dot3 (vsub a b) (vsub a b) := by
      unfold dot3 vsmul; ring
    have h3 : norm3 (vsub c b) = -r * norm3 (vsub a b) := by
      rw [hcol]
      unfold norm3
      rw [h2, Real.sqrt_mul (sq_nonneg r), Real.sqrt_sq_eq_abs, abs_of_neg hr]
    have h4 : norm3 (vsub a b) * norm3 (vsub a b) = dot3 (vsub a b) (vsub a b) :=
      Real.mul_self_sqrt hd0
    have hq : dot3 (vsub a b) (vsub c b) /
        (norm3 (vsub a b) * norm3 (vsub c b)) = -1 := by
      rw [h1, h3]
      have h5 : norm3 (vsub a b) * (-r * norm3 (vsub a b)) =
          -r * dot3 (vsub a b) (vsub a b) := by rw [← h4]; ring
      rw [h5, div_eq_iff (mul_ne_zero (neg_ne_zero.mpr (ne_of_lt hr)) hne)]
      ring
    unfold angleABC
    rw [hq, Real.arccos_neg_one, pi_deg]
  · intro x y z h
    unfold angleABC
    rw [h, zero_div, Real.arccos_zero]
    field_simp
    ring

/-- C8 witness: the ends at plus and minus one on the x axis with the
vertex at the origin form a straight line through the vertex. -/
theorem angle_engine_witness :
    (dot3 (vsub { x := 1, y := 0, z := 0 } { x := 0, y := 0, z := 0 })
       (vsub { x := 1, y := 0, z := 0 } { x := 0, y := 0, z := 0 }) ≠ 0 ∧
     vsub ({ x := -1, y := 0, z := 0 } : Vec3) { x := 0, y := 0, z := 0 } =
       vsmul (-1) (vsub { x := 1, y := 0, z := 0 } { x := 0, y := 0, z := 0 }) ∧
     (-1 : ℝ) < 0) ∧
    ((∀ x y z : Vec3, 0 ≤ angleABC x y z ∧ angleABC x y z ≤ 180) ∧
     angleABC { x := 1, y := 0, z := 0 } { x := 0, y := 0, z := 0 }
       { x := -1, y := 0, z := 0 } = 180 ∧
     (∀ x y z : Vec3, dot3 (vsub x y) (vsub z y) = 0 → angleABC x y z = 90)) :=
  have hne : dot3 (vsub { x := 1, y := 0, z := 0 } { x := 0, y := 0, z := 0 })
      (vsub { x := 1, y := 0, z := 0 } { x := 0, y := 0, z := 0 }) ≠ 0 := by
    norm_num [dot3, vsub]
  have hcol : vsub ({ x := -1, y := 0, z := 0 } : Vec3) { x := 0, y := 0, z := 0 } =
      vsmul (-1) (vsub { x := 1, y := 0, z := 0 } { x := 0, y := 0, z := 0 }) := by
    simp only [vsub, vsmul, Vec3.mk.injEq]
    norm_num
  have hr : (-1 : ℝ) < 0 := by norm_num
  ⟨⟨hne, hcol, hr⟩,
   angle_engine_range_straight_right { x := 1, y := 0, z := 0 }
     { x := 0, y := 0, z := 0 } { x := -1, y := 0, z := 0 } (-1) hne hcol hr⟩

end RehabSense
